import Mathlib

/-!
Verification of the batched training core of a from-scratch neural-network
engine (the `Sequential` model in `dlfs/sequential.py`, together with the
`Layer.get_delta` chain-rule helper in `dlfs/layers/layer.py`).

The Python code is shallowly embedded: arrays become lists (a dataset is a
list of rows, a batch a contiguous slice of rows), scalars become rationals,
collaborator objects (layers, loss functions, metrics, the optimizer) become
the functions the orchestrator actually calls on them, and Python exceptions
become an explicit error type threaded through `Except`.
-/

/-- The Python exceptions the embedded code can raise.  The repository uses
plain `ValueError` for what the specification calls a ConfigurationError. -/
inductive PyError where
  | valueError : String → PyError
  | attributeError : PyError
  | unboundLocalError : PyError
  | zeroDivisionError : PyError
  | indexError : PyError
  deriving DecidableEq, Repr

namespace DLFS

/-- Model of `np.random.permutation(x)`: `p` is the index order drawn by
numpy (a permutation of `0..len(x)-1`); the result lists the rows of `x` in
that order.  Each call of `np.random.permutation` in the source draws a fresh
`p`, independently of any other call, so the two calls in `batch_generator`
are modelled with two unrelated index lists. -/
def permuteRows (p : List Nat) (x : List α) (d : α) : List α :=
  p.map (fun i => x.getD i d)

/-- Embedding of `Sequential.batch_generator` (sequential.py lines 220-247).
`n_batches = len(x) // batch_size` is computed before shuffling; if `shuffle`
the source permutes `x` and `y` with two independent draws (`px`, `py`);
then the slices `x[i:i+b]`, `y[i:i+b]` for `i = 0, b, ..., (n_batches-1)*b`
are yielded in order.  The trailing partial batch is dropped.  (`d x`/`d y`
are the out-of-range defaults of the list embedding; for `batch_size = 0`
the source raises ZeroDivisionError, and every claim assumes a positive
batch size.) -/
def batch_generator (x : List α) (y : List β) (batch_size : Nat) (shuffle : Bool)
    (px py : List Nat) (dx : α) (dy : β) : List (List α × List β) :=
  let n_batches := x.length / batch_size
  let x1 := if shuffle then permuteRows px x dx else x
  let y1 := if shuffle then permuteRows py y dy else y
  (List.range n_batches).map
    (fun j => ((x1.drop (j * batch_size)).take batch_size,
               (y1.drop (j * batch_size)).take batch_size))

end DLFS

section BatchGeneratorProofs

open DLFS

lemma getD_eq_getElem? (l : List α) (n : Nat) (d : α) :
    l.getD n d = (l[n]?).getD d := by
  simp [List.getD]

lemma take_drop_getD (l : List α) (m b k : Nat) (hk : k < b) (d : α) :
    ((l.drop m).take b).getD k d = l.getD (m + k) d := by
  rw [getD_eq_getElem?, getD_eq_getElem?]
  simp [List.getElem?_take, List.getElem?_drop, hk]

lemma take_drop_length_of_le (l : List α) (m b : Nat) (h : m + b ≤ l.length) :
    ((l.drop m).take b).length = b := by
  simp [List.length_take, List.length_drop]
  omega

/-- C10: with `shuffle = false`, `batch_generator` yields exactly
`⌊n / b⌋` batches, each of size exactly `b`, in original row order, with
`x_batch[k]` and `y_batch[k]` taken from the same original row index
`j * b + k`; the trailing `n mod b` rows are never yielded (every yielded
batch is one of the `⌊n / b⌋` full slices below index `⌊n / b⌋ * b`). -/
theorem C10_batch_generator_no_shuffle {α β : Type} (x : List α) (y : List β)
    (b : Nat) (px py : List Nat) (dx : α) (dy : β)
    (hb : 0 < b) (hlen : y.length = x.length) :
    (batch_generator x y b false px py dx dy).length = x.length / b ∧
    (∀ j, j < x.length / b →
      ((batch_generator x y b false px py dx dy).getD j ([], [])).1.length = b ∧
      ((batch_generator x y b false px py dx dy).getD j ([], [])).2.length = b ∧
      (∀ k, k < b →
        ((batch_generator x y b false px py dx dy).getD j ([], [])).1.getD k dx
            = x.getD (j * b + k) dx ∧
        ((batch_generator x y b false px py dx dy).getD j ([], [])).2.getD k dy
            = y.getD (j * b + k) dy)) := by
  have hgen : batch_generator x y b false px py dx dy =
      (List.range (x.length / b)).map
        (fun j => ((x.drop (j * b)).take b, (y.drop (j * b)).take b)) := by
    simp [batch_generator]
  constructor
  · rw [hgen]; simp
  · intro j hj
    have hbound : j * b + b ≤ x.length := by
      have h1 : (j + 1) * b ≤ (x.length / b) * b :=
        Nat.mul_le_mul_right b hj
      have h2 : (x.length / b) * b ≤ x.length := Nat.div_mul_le_self _ _
      calc j * b + b = (j + 1) * b := by ring
        _ ≤ (x.length / b) * b := h1
        _ ≤ x.length := h2
    have hj' : ((List.range (x.length / b)).map
        (fun j => ((x.drop (j * b)).take b, (y.drop (j * b)).take b))).getD j ([], [])
        = ((x.drop (j * b)).take b, (y.drop (j * b)).take b) := by
      rw [getD_eq_getElem?, List.getElem?_map, List.getElem?_range hj]
      rfl
    rw [hgen, hj']
    refine ⟨take_drop_length_of_le x _ _ hbound,
            take_drop_length_of_le y _ _ (by omega), ?_⟩
    intro k hk
    exact ⟨take_drop_getD x _ _ _ hk dx, take_drop_getD y _ _ _ hk dy⟩

/-- Witness for C10 at a concrete input: `x = [1..5]`, `y = [10..50]`,
batch size 2 gives two aligned batches of size 2 and drops the fifth row. -/
theorem C10_batch_generator_no_shuffle_witness :
    (batch_generator ([1, 2, 3, 4, 5] : List ℤ) ([10, 20, 30, 40, 50] : List ℤ) 2 false [] [] 0 0).length
        = ([1, 2, 3, 4, 5] : List ℤ).length / 2 ∧
    (∀ j, j < ([1, 2, 3, 4, 5] : List ℤ).length / 2 →
      ((batch_generator ([1, 2, 3, 4, 5] : List ℤ) ([10, 20, 30, 40, 50] : List ℤ) 2 false [] [] 0 0).getD j ([], [])).1.length = 2 ∧
      ((batch_generator ([1, 2, 3, 4, 5] : List ℤ) ([10, 20, 30, 40, 50] : List ℤ) 2 false [] [] 0 0).getD j ([], [])).2.length = 2 ∧
      (∀ k, k < 2 →
        ((batch_generator ([1, 2, 3, 4, 5] : List ℤ) ([10, 20, 30, 40, 50] : List ℤ) 2 false [] [] 0 0).getD j ([], [])).1.getD k 0
            = ([1, 2, 3, 4, 5] : List ℤ).getD (j * 2 + k) 0 ∧
        ((batch_generator ([1, 2, 3, 4, 5] : List ℤ) ([10, 20, 30, 40, 50] : List ℤ) 2 false [] [] 0 0).getD j ([], [])).2.getD k 0
            = ([10, 20, 30, 40, 50] : List ℤ).getD (j * 2 + k) 0)) :=
  C10_batch_generator_no_shuffle ([1, 2, 3, 4, 5] : List ℤ) ([10, 20, 30, 40, 50] : List ℤ) 2 [] [] 0 0
    (by decide) (by decide)

/-- C1: the source shuffles by calling `np.random.permutation` separately on
`x` (line 238) and on `y` (line 239), drawing two independent permutations.
At `x = [10, 20]`, `y = [1, 2]`, `batch_size = 2` with draws
`px = [0, 1]`, `py = [1, 0]` the single yielded pair is
`([10, 20], [2, 1])`: `x_batch[0]` is original row 0 while `y_batch[0]` is
original row 1, and no single shared permutation of row indices produces
this pair, refuting the claim that one shared permutation is applied. -/
theorem C1_shuffle_independent_permutations :
    batch_generator ([10, 20] : List ℤ) ([1, 2] : List ℤ) 2 true [0, 1] [1, 0] 0 0
        = [([10, 20], [2, 1])] ∧
    ∀ p : List Nat, ¬ (permuteRows p ([10, 20] : List ℤ) 0 = [10, 20] ∧
        permuteRows p ([1, 2] : List ℤ) 0 = [2, 1]) := by
  constructor
  · decide
  · intro p hp
    obtain ⟨hx, hy⟩ := hp
    match p with
    | [] => simp [permuteRows] at hx
    | p0 :: rest =>
      simp [permuteRows] at hx hy
      obtain ⟨hx0, -⟩ := hx
      obtain ⟨hy0, -⟩ := hy
      match p0 with
      | 0 => simp at hy0
      | 1 => simp at hx0
      | (n + 2) => simp [List.getD] at hx0

end BatchGeneratorProofs

namespace DLFS

/-- The downward loop of `Sequential.get_gradients` (sequential.py lines
96-97): `for i in range(len(layers) - 1, 0, -1): gradients[i-1] =
layers[i].backward(gradients[i])`.  The counter argument is the Python loop
variable `i`; `backs` lists each layer backward function in layer order and
`p` is the out-of-range default (all accesses are in range). -/
def gradLoop (backs : List (α → α)) (p : α) : List α → Nat → List α
  | g, 0 => g
  | g, (i + 1) => gradLoop backs p (g.set i ((backs.getD (i + 1) id) (g.getD (i + 1) p))) i

/-- Embedding of `Sequential.get_gradients` (sequential.py lines 80-99):
`gradients = [placeholder] * len(layers)`, `gradients[-1] =
loss.backward(y_pred, y_true)`, then the downward loop.  On an empty layer
list the source raises IndexError at `gradients[-1]`; a `Sequential` model
always has at least its `Input` layer.  `p` is the placeholder
`np.ndarray([])`. -/
def get_gradients (lossBackward : β → β → α) (backs : List (α → α))
    (y_pred y_true : β) (p : α) : Except PyError (List α) :=
  if backs.length = 0 then Except.error PyError.indexError
  else
    let g0 := (List.replicate backs.length p).set (backs.length - 1)
        (lossBackward y_pred y_true)
    Except.ok (gradLoop backs p g0 (backs.length - 1))

/-- `compFrom [b1, ..., bk] s = b1 (b2 (... (bk s)))`: the composition of a
suffix of layer backward functions applied to the seed gradient. -/
def compFrom (bs : List (α → α)) (s : α) : α :=
  bs.foldr (fun b acc => b acc) s

/-- Closed form of the gradient list: slot `j` holds the backward functions
of layers `j+1, ..., n-1` applied (innermost last) to the loss gradient. -/
def chainSpec (backs : List (α → α)) (s : α) : List α :=
  (List.range backs.length).map (fun j => compFrom (backs.drop (j + 1)) s)

end DLFS

section GetGradientsProofs

open DLFS

lemma gradLoop_length (backs : List (α → α)) (p : α) :
    ∀ (k : Nat) (g : List α), (gradLoop backs p g k).length = g.length := by
  intro k
  induction k with
  | zero => intro g; rfl
  | succ k ih => intro g; rw [gradLoop, ih]; simp

lemma gradLoop_inv (backs : List (α → α)) (p : α) :
    ∀ (k : Nat) (g : List α), k < g.length →
      (∀ j, k ≤ j → (gradLoop backs p g k).getD j p = g.getD j p) ∧
      (∀ j, j < k → (gradLoop backs p g k).getD j p
          = (backs.getD (j + 1) id) ((gradLoop backs p g k).getD (j + 1) p)) := by
  intro k
  induction k with
  | zero =>
    intro g _
    exact ⟨fun j _ => rfl, fun j hj => absurd hj (Nat.not_lt_zero j)⟩
  | succ k ih =>
    intro g hg
    rw [gradLoop]
    have hlen : k < (g.set k ((backs.getD (k + 1) id) (g.getD (k + 1) p))).length := by
      simp; omega
    obtain ⟨ih1, ih2⟩ := ih _ hlen
    have hne : ∀ j, k ≠ j → (g.set k ((backs.getD (k + 1) id) (g.getD (k + 1) p))).getD j p
        = g.getD j p := by
      intro j hj
      simp [getD_eq_getElem?, List.getElem?_set_ne hj]
    constructor
    · intro j hj
      rw [ih1 j (by omega), hne j (by omega)]
    · intro j hj
      rcases Nat.lt_succ_iff_lt_or_eq.mp hj with hlt | heq
      · exact ih2 j hlt
      · subst heq
        rw [ih1 j le_rfl, ih1 (j + 1) (by omega), hne (j + 1) (by omega)]
        rw [getD_eq_getElem?, List.getElem?_set_eq_of_lt _ (by omega)]
        rfl

lemma compFrom_cons (b : α → α) (bs : List (α → α)) (s : α) :
    compFrom (b :: bs) s = b (compFrom bs s) := rfl

lemma compFrom_drop_succ (backs : List (α → α)) (s : α) (j : Nat)
    (hj : j + 1 < backs.length) :
    compFrom (backs.drop (j + 1)) s
      = (backs.getD (j + 1) id) (compFrom (backs.drop (j + 2)) s) := by
  rw [List.drop_eq_getElem_cons hj, compFrom_cons, List.getD_eq_getElem _ id hj]

lemma chainSpec_length (backs : List (α → α)) (s : α) :
    (chainSpec backs s).length = backs.length := by
  simp [chainSpec]

lemma chainSpec_getD (backs : List (α → α)) (s : α) (j : Nat) (p : α)
    (hj : j < backs.length) :
    (chainSpec backs s).getD j p = compFrom (backs.drop (j + 1)) s := by
  rw [chainSpec, getD_eq_getElem?, List.getElem?_map, List.getElem?_range hj]
  rfl

lemma get_gradients_eq_chainSpec (lossBackward : β → β → α) (backs : List (α → α))
    (y_pred y_true : β) (p : α) (h : backs ≠ []) :
    get_gradients lossBackward backs y_pred y_true p
      = Except.ok (chainSpec backs (lossBackward y_pred y_true)) := by
  have hn : 0 < backs.length := List.length_pos.mpr h
  set s := lossBackward y_pred y_true with hs
  set g0 := (List.replicate backs.length p).set (backs.length - 1) s with hg0
  have hg0len : g0.length = backs.length := by simp [hg0]
  have hk : backs.length - 1 < g0.length := by omega
  obtain ⟨inv1, inv2⟩ := gradLoop_inv backs p (backs.length - 1) g0 hk
  set r := gradLoop backs p g0 (backs.length - 1) with hr
  have hrlen : r.length = backs.length := by rw [hr, gradLoop_length, hg0len]
  have hlast : r.getD (backs.length - 1) p = s := by
    rw [inv1 (backs.length - 1) le_rfl, hg0, getD_eq_getElem?,
      List.getElem?_set_eq_of_lt _ (by simp; omega)]
    rfl
  have hclosed : ∀ d, d ≤ backs.length - 1 →
      r.getD (backs.length - 1 - d) p = compFrom (backs.drop (backs.length - d)) s := by
    intro d
    induction d with
    | zero =>
      intro _
      have : backs.drop backs.length = [] := List.drop_length backs
      simpa [this, compFrom] using hlast
    | succ d ihd =>
      intro hd
      have hj : backs.length - 1 - (d + 1) < backs.length - 1 := by omega
      have hrec := inv2 _ hj
      have hidx : backs.length - 1 - (d + 1) + 1 = backs.length - 1 - d := by omega
      have hidx2 : backs.length - 1 - (d + 1) + 2 = backs.length - d := by omega
      rw [hidx] at hrec
      rw [hrec, ihd (by omega)]
      have hstep : backs.length - (d + 1) = backs.length - 1 - (d + 1) + 1 := by omega
      rw [hstep, compFrom_drop_succ backs s _ (by omega), hidx, hidx2]
  have hallj : ∀ j, j < backs.length → r.getD j p = compFrom (backs.drop (j + 1)) s := by
    intro j hjn
    have h1 : backs.length - 1 - (backs.length - 1 - j) = j := by omega
    have h2 : backs.length - (backs.length - 1 - j) = j + 1 := by omega
    have := hclosed (backs.length - 1 - j) (by omega)
    rwa [h1, h2] at this
  have hmain : r = chainSpec backs s := by
    apply List.ext_getElem (by rw [hrlen, chainSpec_length])
    intro i hi1 hi2
    have hin : i < backs.length := by omega
    have hL : r[i] = r.getD i p := (List.getD_eq_getElem r p hi1).symm
    have hR : (chainSpec backs s)[i] = (chainSpec backs s).getD i p :=
      (List.getD_eq_getElem _ p hi2).symm
    rw [hL, hR, hallj i hin, chainSpec_getD backs s i p hin]
  rw [get_gradients, if_neg (by omega)]
  exact congrArg Except.ok hmain

/-- C5: for a compiled model with a nonempty layer chain, `get_gradients`
returns a list whose length is the number of layers, whose last slot is
exactly `loss.backward(y_pred, y_true)`, and whose slots satisfy the
single reverse-sweep recurrence `gradients[i] =
layers[i+1].backward(gradients[i+1])`; the result does not depend on the
initial placeholder (every slot is seeded or overwritten, in particular
slot 0 whenever there is more than one layer), and it does not depend on
the first layer backward function, which is never called. -/
theorem C5_get_gradients_reverse_sweep {α β : Type} (lossBackward : β → β → α)
    (backs : List (α → α)) (y_pred y_true : β) (p p2 : α) (b0 : α → α)
    (h : backs ≠ []) :
    ∃ r, get_gradients lossBackward backs y_pred y_true p = Except.ok r ∧
      r.length = backs.length ∧
      r.getD (backs.length - 1) p = lossBackward y_pred y_true ∧
      (∀ i, i + 1 < backs.length →
        r.getD i p = (backs.getD (i + 1) id) (r.getD (i + 1) p)) ∧
      get_gradients lossBackward backs y_pred y_true p2 = Except.ok r ∧
      get_gradients lossBackward (b0 :: backs.tail) y_pred y_true p = Except.ok r := by
  obtain ⟨hd, tl, rfl⟩ := List.exists_cons_of_ne_nil h
  set s := lossBackward y_pred y_true with hs
  refine ⟨chainSpec (hd :: tl) s, get_gradients_eq_chainSpec _ _ _ _ _ h,
    chainSpec_length _ _, ?_, ?_, get_gradients_eq_chainSpec _ _ _ _ _ h, ?_⟩
  · rw [chainSpec_getD _ _ _ _ (by simp), List.length_cons, Nat.add_sub_cancel,
      ← List.length_cons hd tl, List.drop_length]
    rfl
  · intro i hi
    rw [chainSpec_getD _ _ _ _ (by omega), chainSpec_getD _ _ _ _ hi]
    exact compFrom_drop_succ _ s i hi
  · rw [get_gradients_eq_chainSpec _ _ _ _ _ (by simp)]
    congr 1

/-- Witness for C5 at a concrete input: two layers with backward functions
`x + 1` and `x * 2`, loss backward `y_pred - y_true` at `(5, 2)`; the
returned gradients are `[7, 3]`. -/
theorem C5_get_gradients_reverse_sweep_witness :
    ∃ r, get_gradients (fun (a b : ℤ) => a - b)
          [fun x => x + 1, fun x => x * 2] 5 2 0 = Except.ok r ∧
      r.length = ([fun x => x + 1, fun x => (x : ℤ) * 2] : List (ℤ → ℤ)).length ∧
      r.getD (([fun x => x + 1, fun x => (x : ℤ) * 2] : List (ℤ → ℤ)).length - 1) 0
          = (fun (a b : ℤ) => a - b) 5 2 ∧
      (∀ i, i + 1 < ([fun x => x + 1, fun x => (x : ℤ) * 2] : List (ℤ → ℤ)).length →
        r.getD i 0 = (([fun x => x + 1, fun x => (x : ℤ) * 2] : List (ℤ → ℤ)).getD (i + 1) id)
          (r.getD (i + 1) 0)) ∧
      get_gradients (fun (a b : ℤ) => a - b)
          [fun x => x + 1, fun x => x * 2] 5 2 9 = Except.ok r ∧
      get_gradients (fun (a b : ℤ) => a - b)
          ((fun x => x + 7) :: ([fun x => x + 1, fun x => (x : ℤ) * 2] : List (ℤ → ℤ)).tail)
          5 2 0 = Except.ok r :=
  C5_get_gradients_reverse_sweep (fun (a b : ℤ) => a - b)
    [fun x => x + 1, fun x => x * 2] 5 2 0 9 (fun x => x + 7) (by simp)

end GetGradientsProofs

namespace DLFS

/-- Elementwise sum of two equal-length vectors (numpy `+` on rows). -/
def vecAdd (a b : List ℚ) : List ℚ := List.zipWith (· + ·) a b

/-- Row vector times matrix: entry `l` of the result is
`sum over k of row[k] * M[k][l]`, computed as the sum of the scaled rows of
`M`.  This is one sample of the contraction
`np.einsum('ijk,ikl->il', d_out[:, np.newaxis, :], activation_gradient)`
in `Layer.get_delta` (layer.py line 106). -/
def rowTimesMat (row : List ℚ) (M : List (List ℚ)) : List ℚ :=
  (List.zipWith (fun r v => v.map (fun a => r * a)) row M).foldr vecAdd
    (List.replicate (M.headD []).length 0)

/-- The batched contraction of layer.py lines 105-106: per sample `i`, the
row `d_out[i]` times the per-sample Jacobian `jac[i]`. -/
def einsumBatched (d_out : List (List ℚ)) (jac : List (List (List ℚ))) :
    List (List ℚ) :=
  List.zipWith rowTimesMat d_out jac

/-- Elementwise product of two batches (numpy `*`), the shortcut branch
`delta = d_out * activation_gradient` of layer.py line 103. -/
def elemMul (a b : List (List ℚ)) : List (List ℚ) :=
  List.zipWith (List.zipWith (· * ·)) a b

/-- The diagonal matrix whose diagonal is `g`, as its list of rows. -/
def diagRows : List ℚ → List (List ℚ)
  | [] => []
  | a :: as => (a :: List.replicate as.length 0) :: (diagRows as).map (fun v => 0 :: v)

/-- The value `self.activation.gradient(self.z)` seen by `get_delta`: a
numpy array that is either rank 2 (elementwise gradient, one entry per
pre-activation entry) or rank 3 (one Jacobian matrix per sample, e.g. for
softmax). -/
inductive ActGrad where
  | elemwise (g : List (List ℚ))
  | jacobian (t : List (List (List ℚ)))

/-- The numpy shape of a rank-2 array in the list embedding. -/
def matShape (a : List (List ℚ)) : Nat × List Nat := (a.length, a.map List.length)

/-- Embedding of `Layer.get_delta` (layer.py lines 80-114).  `inited` is the
`self.initialized` gate; `activationGradient` is `self.activation.gradient`
when an activation is attached (`self.activation is None` otherwise); `z` is
the cached pre-activation.  The source branches on
`activation_gradient.shape == self.z.shape`: a rank-2 gradient of the same
shape takes the elementwise shortcut; any other shape falls to the einsum
contraction, which numpy accepts only for a rank-3 operand (a rank-2
gradient of a different shape would raise a ValueError inside `np.einsum`,
modelled by the error branch). -/
def get_delta (inited : Bool) (activationGradient : Option (List (List ℚ) → ActGrad))
    (z d_out : List (List ℚ)) : Except PyError (List (List ℚ)) :=
  if ¬ inited then Except.error (PyError.valueError "The layer is not initialized")
  else
    match activationGradient with
    | none => Except.ok d_out
    | some gradf =>
      match gradf z with
      | ActGrad.elemwise g =>
        if matShape g = matShape z then Except.ok (elemMul d_out g)
        else Except.error (PyError.valueError "operand has wrong rank for einsum")
      | ActGrad.jacobian t => Except.ok (einsumBatched d_out t)

end DLFS

section GetDeltaProofs

open DLFS

lemma vecAdd_cons (x y : ℚ) (v w : List ℚ) :
    vecAdd (x :: v) (y :: w) = (x + y) :: vecAdd v w := by
  simp [vecAdd]

lemma foldr_vecAdd_zero_cons (z : List ℚ) (ws : List (List ℚ)) :
    ((ws.map (fun v => (0 : ℚ) :: v)).foldr vecAdd ((0 : ℚ) :: z))
      = 0 :: ws.foldr vecAdd z := by
  induction ws with
  | nil => rfl
  | cons w ws ih =>
    simp only [List.map_cons, List.foldr_cons, ih]
    simp [vecAdd]

lemma zipWith_scale_map_zero_cons (rs : List ℚ) (vs : List (List ℚ)) :
    List.zipWith (fun r v => v.map (fun a => r * a)) rs
        (vs.map (fun v => (0 : ℚ) :: v))
      = (List.zipWith (fun r v => v.map (fun a => r * a)) rs vs).map
          (fun v => (0 : ℚ) :: v) := by
  induction rs generalizing vs with
  | nil => simp
  | cons r rs ih =>
    cases vs with
    | nil => simp
    | cons v vs => simp [ih]

lemma vecAdd_replicate_zero (v : List ℚ) :
    vecAdd (List.replicate v.length 0) v = v := by
  induction v with
  | nil => rfl
  | cons a v ih => simpa [vecAdd, List.replicate_succ] using ih

lemma diagRows_headD_length (g : List ℚ) :
    ((diagRows g).headD []).length = g.length := by
  cases g with
  | nil => rfl
  | cons a as => simp [diagRows]

lemma rowTimesMat_diagRows (row g : List ℚ) (h : row.length = g.length) :
    rowTimesMat row (diagRows g) = List.zipWith (· * ·) row g := by
  induction row generalizing g with
  | nil =>
    have : g = [] := List.eq_nil_of_length_eq_zero h.symm
    subst this
    rfl
  | cons r rs ih =>
    cases g with
    | nil => simp at h
    | cons a as =>
      have hlen : rs.length = as.length := by simpa using h
      rw [rowTimesMat, diagRows]
      simp only [List.zipWith_cons_cons, List.headD_cons, List.foldr_cons,
        List.length_cons, List.length_replicate, List.replicate_succ,
        zipWith_scale_map_zero_cons, foldr_vecAdd_zero_cons,
        List.map_cons, List.map_replicate, mul_zero]
      have hT : (List.zipWith (fun r v => v.map (fun a => r * a)) rs
          (diagRows as)).foldr vecAdd (List.replicate as.length 0)
          = rowTimesMat rs (diagRows as) := by
        rw [rowTimesMat, diagRows_headD_length]
      have hzlen : (List.zipWith (· * ·) rs as).length = as.length := by
        simp [List.length_zipWith, hlen]
      rw [hT, ih as hlen, vecAdd_cons, add_zero, ← hzlen, vecAdd_replicate_zero]

lemma einsumBatched_map_diag (d g : List (List ℚ))
    (h : d.map List.length = g.map List.length) :
    einsumBatched d (g.map diagRows) = elemMul d g := by
  induction d generalizing g with
  | nil =>
    cases g with
    | nil => rfl
    | cons _ _ => simp at h
  | cons dr d ih =>
    cases g with
    | nil => simp at h
    | cons gr g =>
      simp only [List.map_cons, List.cons.injEq] at h
      obtain ⟨h1, h2⟩ := h
      simp only [einsumBatched, elemMul, List.map_cons, List.zipWith_cons_cons]
      exact List.cons_eq_cons.mpr ⟨rowTimesMat_diagRows dr gr h1,
        ih g h2⟩

/-- C9: on an initialized layer, computing `get_delta` through the
full-Jacobian contraction applied to the diagonal-matrix form of an
elementwise activation gradient gives exactly the elementwise-product
shortcut the source takes when `activation_gradient.shape == z.shape`, for
every batch element; and with no activation attached, `get_delta` returns
`d_out` unchanged. -/
theorem C9_get_delta_diag_jacobian_eq_elemwise (z d_out g : List (List ℚ))
    (hg : matShape g = matShape z) (hd : matShape d_out = matShape z) :
    get_delta true (some (fun _ => ActGrad.jacobian (g.map diagRows))) z d_out
        = get_delta true (some (fun _ => ActGrad.elemwise g)) z d_out ∧
    get_delta true none z d_out = Except.ok d_out := by
  refine ⟨?_, rfl⟩
  have hlen : d_out.map List.length = g.map List.length := by
    have h1 := congrArg Prod.snd hg
    have h2 := congrArg Prod.snd hd
    simp only [matShape] at h1 h2
    rw [h2, h1]
  simp only [get_delta, hg, not_true_eq_false, if_false, ite_true, if_pos]
  exact congrArg Except.ok (einsumBatched_map_diag d_out g hlen)

/-- Witness for C9 at a concrete input: one sample, `z = [[1, 2]]`,
`d_out = [[3, 4]]`, elementwise gradient `[[5, 6]]`. -/
theorem C9_get_delta_diag_jacobian_eq_elemwise_witness :
    get_delta true (some (fun _ => ActGrad.jacobian (([[5, 6]] : List (List ℚ)).map diagRows)))
        [[1, 2]] [[3, 4]]
      = get_delta true (some (fun _ => ActGrad.elemwise ([[5, 6]] : List (List ℚ))))
        [[1, 2]] [[3, 4]] ∧
    get_delta true none [[1, 2]] [[3, 4]] = Except.ok [[3, 4]] :=
  C9_get_delta_diag_jacobian_eq_elemwise [[1, 2]] [[3, 4]] [[5, 6]]
    (by decide) (by decide)

end GetDeltaProofs

namespace DLFS

/-- The list of `(x_batch, y_batch)` slices processed by `Sequential.evaluate`
(sequential.py lines 259-265): `n_batches = len(x) // batch_size` full
slices; the trailing partial batch is dropped, exactly as in
`batch_generator` without shuffling. -/
def evalBatches {X Y : Type} (x : List X) (y : List Y) (b : Nat) :
    List (List X × List Y) :=
  (List.range (x.length / b)).map
    (fun j => ((x.drop (j * b)).take b, (y.drop (j * b)).take b))

/-- Embedding of `Sequential.evaluate` (sequential.py lines 249-276).
`layers` is `self.layers`; the body never reads it — no forward pass is run.
`loss` is `self.loss` (`None`, i.e. `none`, before `compile`); per batch the
source calls `self.loss.compute_loss(self, x_batch, y_batch)`, passing the
raw input slice in the `y_pred` argument position, modelled by
`L x_batch y_batch` (the `self` argument of `compute_loss` is opaque to
`evaluate`).  With `self.loss = None` the attribute access raises
AttributeError at the first processed batch; `len(x) // 0` and the final
division by `len(x) = 0` raise ZeroDivisionError. -/
def evaluate {X Y γ : Type} (layers : List γ) (loss : Option (List X → List Y → ℚ))
    (x : List X) (y : List Y) (batch_size : Nat) : Except PyError ℚ :=
  if batch_size = 0 then Except.error PyError.zeroDivisionError
  else
    match (evalBatches x y batch_size).foldlM
        (fun acc p =>
          match loss with
          | none => Except.error PyError.attributeError
          | some L => Except.ok (acc + L p.1 p.2)) (0 : ℚ) with
    | Except.error e => Except.error e
    | Except.ok total =>
      if x.length = 0 then Except.error PyError.zeroDivisionError
      else Except.ok (total / (x.length : ℚ))

end DLFS

section EvaluateProofs

open DLFS

lemma foldlM_ok_add {X Y : Type} (f : List X × List Y → ℚ)
    (l : List (List X × List Y)) :
    ∀ acc : ℚ, l.foldlM (fun acc p => (Except.ok (acc + f p) : Except PyError ℚ)) acc
      = Except.ok (acc + (l.map f).sum) := by
  induction l with
  | nil =>
    intro acc
    have h0 : (List.foldlM (fun acc p => (Except.ok (acc + f p) : Except PyError ℚ)) acc [])
        = Except.ok acc := rfl
    rw [h0]
    simp
  | cons p l ih =>
    intro acc
    have step : List.foldlM (fun acc p => (Except.ok (acc + f p) : Except PyError ℚ)) acc (p :: l)
        = List.foldlM (fun acc p => (Except.ok (acc + f p) : Except PyError ℚ)) (acc + f p) l := rfl
    rw [step, ih (acc + f p), List.map_cons, List.sum_cons, add_assoc]

lemma evaluate_some_eq {X Y γ : Type} (layers : List γ) (L : List X → List Y → ℚ)
    (x : List X) (y : List Y) (b : Nat) (hb : 0 < b) (hx : 0 < x.length) :
    evaluate layers (some L) x y b
      = Except.ok (((evalBatches x y b).map (fun p => L p.1 p.2)).sum / (x.length : ℚ)) := by
  rw [evaluate, if_neg (by omega)]
  have hfold : (evalBatches x y b).foldlM
      (fun acc p =>
        match (some L : Option (List X → List Y → ℚ)) with
        | none => Except.error PyError.attributeError
        | some L => Except.ok (acc + L p.1 p.2)) (0 : ℚ)
      = Except.ok ((0 : ℚ) + ((evalBatches x y b).map (fun p => L p.1 p.2)).sum) :=
    foldlM_ok_add (fun p => L p.1 p.2) (evalBatches x y b) 0
  rw [hfold]
  simp only [zero_add]
  rw [if_neg (by omega)]

lemma evalBatches_mem_length {X Y : Type} (x : List X) (y : List Y) (b : Nat)
    (hlen : y.length = x.length) :
    ∀ p ∈ evalBatches x y b, p.1.length = b ∧ p.2.length = b := by
  intro p hp
  obtain ⟨j, hj, rfl⟩ := List.mem_map.mp hp
  rw [List.mem_range] at hj
  have hbound : j * b + b ≤ x.length := by
    have h1 : (j + 1) * b ≤ (x.length / b) * b := Nat.mul_le_mul_right b hj
    have h2 : (x.length / b) * b ≤ x.length := Nat.div_mul_le_self _ _
    calc j * b + b = (j + 1) * b := by ring
      _ ≤ (x.length / b) * b := h1
      _ ≤ x.length := h2
  exact ⟨take_drop_length_of_le x _ _ hbound,
         take_drop_length_of_le y _ _ (by omega)⟩

/-- C7: `evaluate` processes exactly `⌊n / b⌋` full batches of size `b`
(the trailing partial batch is never processed) and returns the sum of
those batches' losses divided by the full dataset length `n`, even when
fewer than `n` samples were processed. -/
theorem C7_evaluate_batches_and_denominator {X Y γ : Type} (layers : List γ)
    (L : List X → List Y → ℚ) (x : List X) (y : List Y) (b : Nat)
    (hb : 0 < b) (hx : 0 < x.length) (hlen : y.length = x.length) :
    (evalBatches x y b).length = x.length / b ∧
    (∀ p ∈ evalBatches x y b, p.1.length = b ∧ p.2.length = b) ∧
    evaluate layers (some L) x y b
      = Except.ok (((evalBatches x y b).map (fun p => L p.1 p.2)).sum / (x.length : ℚ)) :=
  ⟨by simp [evalBatches], evalBatches_mem_length x y b hlen,
   evaluate_some_eq layers L x y b hb hx⟩

/-- Witness for C7 at the spec's concrete sizes: `len(x) = 10`,
`batch_size = 4` gives exactly 2 processed batches of 4 rows and divides by
10. -/
theorem C7_evaluate_batches_and_denominator_witness :
    (evalBatches (List.range 10) (List.range 10) 4).length = (List.range 10).length / 4 ∧
    (∀ p ∈ evalBatches (List.range 10) (List.range 10) 4,
      p.1.length = 4 ∧ p.2.length = 4) ∧
    evaluate ([] : List Unit) (some (fun _ _ => (1 : ℚ))) (List.range 10) (List.range 10) 4
      = Except.ok (((evalBatches (List.range 10) (List.range 10) 4).map
          (fun p => (fun (_ : List ℕ) (_ : List ℕ) => (1 : ℚ)) p.1 p.2)).sum
            / ((List.range 10).length : ℚ)) :=
  C7_evaluate_batches_and_denominator ([] : List Unit) (fun _ _ => (1 : ℚ))
    (List.range 10) (List.range 10) 4 (by decide) (by decide) (by decide)

/-- C8: `evaluate` never invokes any layer forward pass — its result does
not depend on the layer list at all (not even on its type) — and each
per-batch loss it accumulates is the loss function applied with the raw
input slice `x[j*b : j*b+b]` in the predictions argument position and the
label slice as the labels. -/
theorem C8_evaluate_no_forward_raw_x {X Y γ γ2 : Type} (layers : List γ)
    (layers2 : List γ2) (L : List X → List Y → ℚ) (x : List X) (y : List Y)
    (b : Nat) (hb : 0 < b) (hx : 0 < x.length) :
    evaluate layers (some L) x y b = evaluate layers2 (some L) x y b ∧
    evaluate layers (some L) x y b
      = Except.ok (((List.range (x.length / b)).map
          (fun j => L ((x.drop (j * b)).take b) ((y.drop (j * b)).take b))).sum
            / (x.length : ℚ)) := by
  refine ⟨rfl, ?_⟩
  rw [evaluate_some_eq layers L x y b hb hx]
  congr 1
  rw [evalBatches, List.map_map]
  rfl

/-- Witness for C8 at a concrete input: the layer lists differ (and have
different element types), yet the result only applies the loss to raw
slices of `x`. -/
theorem C8_evaluate_no_forward_raw_x_witness :
    evaluate ([0] : List ℕ) (some (fun xb yb => (xb.sum : ℚ) - yb.sum))
        ([1, 2, 3] : List ℚ) ([4, 5, 6] : List ℚ) 2
      = evaluate ([true, false] : List Bool) (some (fun xb yb => (xb.sum : ℚ) - yb.sum))
        ([1, 2, 3] : List ℚ) ([4, 5, 6] : List ℚ) 2 ∧
    evaluate ([0] : List ℕ) (some (fun xb yb => (xb.sum : ℚ) - yb.sum))
        ([1, 2, 3] : List ℚ) ([4, 5, 6] : List ℚ) 2
      = Except.ok (((List.range (([1, 2, 3] : List ℚ).length / 2)).map
          (fun j => (fun (xb yb : List ℚ) => (xb.sum : ℚ) - yb.sum)
            ((([1, 2, 3] : List ℚ).drop (j * 2)).take 2)
            ((([4, 5, 6] : List ℚ).drop (j * 2)).take 2))).sum
            / ((([1, 2, 3] : List ℚ).length : ℚ))) :=
  C8_evaluate_no_forward_raw_x ([0] : List ℕ) ([true, false] : List Bool)
    (fun xb yb => (xb.sum : ℚ) - yb.sum) ([1, 2, 3] : List ℚ) ([4, 5, 6] : List ℚ)
    2 (by decide) (by decide)

end EvaluateProofs

namespace DLFS

/-- Embedding of `Sequential.predict_batch` (sequential.py lines 307-319):
`for layer in self.layers: last_input = layer.forward(last_input)`.  A layer
is modelled by the action of its `forward` method on a whole batch together
with the `training` flag; the source omits the keyword, so every layer runs
with the abstract `Layer.forward` default `training=False` (layer.py line
66), embedded as the literal `false` below. -/
def predict_batch {ρ : Type} (layers : List (List ρ → Bool → List ρ))
    (xb : List ρ) : List ρ :=
  layers.foldl (fun acc f => f acc false) xb

/-- The Python `range(0, n, b)` of slice starts used by `Sequential.predict`
(line 291), for a positive step `b`. -/
def predictStarts (n b : Nat) : List Nat :=
  (List.range ((n + b - 1) / b)).map (fun j => j * b)

/-- Embedding of `Sequential.predict` (sequential.py lines 278-305): slices
`x[i:i+batch_size]` — here the trailing partial batch is included — runs
`predict_batch` on each slice and concatenates the per-batch outputs.  The
`training` parameter is accepted and, exactly as in the source, never
forwarded: `predict_batch(x_batch)` is called without it.  (For empty `x`
the source raises inside `np.concatenate`; the claims use nonempty data.) -/
def predict {ρ : Type} (layers : List (List ρ → Bool → List ρ)) (x : List ρ)
    (batch_size : Nat) (training : Bool) : List ρ :=
  ((predictStarts x.length batch_size).map
    (fun i => predict_batch layers ((x.drop i).take batch_size))).flatten

/-- A forward function that observes its `training` flag: adds 1 to every
entry when `training` is true. -/
def trainingProbe : List ℤ → Bool → List ℤ :=
  fun v t => if t then v.map (fun a => a + 1) else v

end DLFS

section PredictProofs

open DLFS

/-- C4: `Sequential.fit` requests the training-mode forward pass as
`self.predict(x_batch, training=True)` (line 164), but `predict` never
forwards its `training` argument — `predict_batch` invokes each layer
forward with the default `training=False` — so `predict` is insensitive to
the flag, and a layer that behaves differently in training mode observes
`training=False` during `fit`: with the probe layer and batch `[5]`,
`predict` under `training=True` returns `[5]` although the probe layer run
with `training=True` would return `[6]`. -/
theorem C4_fit_forward_training_flag_dropped :
    (∀ (ρ : Type) (layers : List (List ρ → Bool → List ρ)) (x : List ρ) (b : Nat),
      predict layers x b true = predict layers x b false) ∧
    predict [trainingProbe] [5] 32 true = [5] ∧
    trainingProbe [5] true = [6] := by
  refine ⟨fun ρ layers x b => rfl, by decide, by decide⟩

end PredictProofs

namespace DLFS

/-- The History dictionary built by `Sequential.fit` (lines 143-147): the
`loss` and `val_loss` series plus, per metric name `m`, a series for `m`
(`metricH m`) and one for the key `'val_' + m` (`val_metricH m`). -/
structure History where
  loss : List ℚ
  val_loss : List ℚ
  metricH : String → List ℚ
  val_metricH : String → List ℚ

/-- Append `v` to the series of key `k` in a keyed family of series. -/
def appendSeries (f : String → List ℚ) (k : String) (v : ℚ) : String → List ℚ :=
  fun s => if s = k then f s ++ [v] else f s

/-- The numeric results of the collaborator calls made inside the `fit`
epoch loop, abstracted as given values: `batchLosses e` lists the
`loss.compute_loss` results of epoch `e` in batch order (its length is the
number of yielded batches); `trainMetric e i m` is the
`metrics[m].compute_metric(self, x_batch, y_batch)` value of batch `i`
(line 179); `valLoss e` is the validation loss of line 196;
`valMetricXY e m` is the `compute_metric(self, x_val, y_val)` value of line
202; `valMetricPred e m` is the `compute_metric(self, y_pred_val, y_val)`
value of line 210. -/
structure FitEnv where
  batchLosses : Nat → List ℚ
  trainMetric : Nat → Nat → String → ℚ
  valLoss : Nat → ℚ
  valMetricXY : Nat → String → ℚ
  valMetricPred : Nat → String → ℚ

/-- One epoch of the `fit` loop (sequential.py lines 154-216) acting on the
state `(epoch_loss, epoch_metrics, history)`.  `epoch_loss` and
`epoch_metrics` are Python locals assigned only under `verbose == 2` (lines
156-158); `none` models the unbound state, and reading `none` raises
UnboundLocalError.  The per-batch forward pass, backward pass and optimizer
update (lines 163-170) mutate only layer and optimizer state, abstracted
into `env`; the `verbose == 1` per-batch printing (lines 182-185) reads
only batch-local values.  At epoch end, under `verbose > 0` the source
reads `epoch_loss` (line 190) and, per metric, `epoch_metrics[m] / len(x)`
(line 192); when validation data is used it then appends `epoch_loss` to
`val_loss` (line 199), appends `valMetricXY` per metric (line 205), appends
the validation loss to `val_loss` (line 208) and appends `valMetricPred`
per metric (line 210).  Finally — at every verbosity — it appends
`epoch_loss` to `loss` (line 214) and, per metric, `epoch_metrics[m] /
len(x)` (line 216; for `len(x) = 0` the source would raise
ZeroDivisionError there, and the claims use positive `len(x)`). -/
def fitEpoch (env : FitEnv) (metrics : List String) (lenx : Nat) (verbose : Nat)
    (usingVal : Bool) (epoch : Nat)
    (st : Option ℚ × Option (String → ℚ) × History) :
    Except PyError (Option ℚ × Option (String → ℚ) × History) :=
  let el0 := if verbose = 2 then some (0 : ℚ) else st.1
  let em0 := if verbose = 2 then some (fun _ => (0 : ℚ)) else st.2.1
  let nb := (env.batchLosses epoch).length
  let acc := (List.range nb).foldl
    (fun (s : Option ℚ × Option (String → ℚ)) bi =>
      if verbose = 2 then
        (some (s.1.getD 0 + (env.batchLosses epoch).getD bi 0),
         some (fun m => s.2.getD (fun _ => 0) m + env.trainMetric epoch bi m))
      else s) (el0, em0)
  do
    let h1 ←
      if verbose > 0 then
        match acc.1 with
        | none => Except.error PyError.unboundLocalError
        | some elv =>
          if metrics ≠ [] ∧ acc.2.isNone then Except.error PyError.unboundLocalError
          else if usingVal then
            let hA := { st.2.2 with val_loss := st.2.2.val_loss ++ [elv] }
            let fB := metrics.foldl
              (fun f m => appendSeries f m (env.valMetricXY epoch m)) hA.val_metricH
            let hB := { hA with val_metricH := fB }
            let hC := { hB with val_loss := hB.val_loss ++ [env.valLoss epoch] }
            let fD := metrics.foldl
              (fun f m => appendSeries f m (env.valMetricPred epoch m)) hC.val_metricH
            Except.ok { hC with val_metricH := fD }
          else Except.ok st.2.2
      else Except.ok st.2.2
    let h2 ←
      match acc.1 with
      | none => Except.error PyError.unboundLocalError
      | some elv => Except.ok { h1 with loss := h1.loss ++ [elv] }
    let h3 ←
      if metrics ≠ [] then
        match acc.2 with
        | none => Except.error PyError.unboundLocalError
        | some emf =>
          let fM := metrics.foldl
            (fun f m => appendSeries f m (emf m / (lenx : ℚ))) h2.metricH
          Except.ok { h2 with metricH := fM }
      else Except.ok h2
    Except.ok (acc.1, acc.2, h3)

/-- Embedding of `Sequential.fit` (sequential.py lines 101-218).
`optimizerSet` and `lossSet` model `self.optimizer is not None` and
`self.loss is not None` (both are set by `compile`); `hasValidationData`
models `validation_data is not None`; `metrics` lists the bound metric
names in dictionary insertion order; `lenx` is `len(x)`.  Steps, in source
order: the compile check (line 118); the validation-source checks (lines
121-134; `train_test_split` at line 126 only computes the validation
arrays, whose downstream values live in `env`); layer initialization
(lines 136-141) touches only layer state and no claim reads it; History
initialization (lines 143-147); the epoch loop over
`range(initial_epoch, epochs)` (the `tqdm` wrapper used at `verbose == 0`
only draws a progress bar); finally the History is returned (line 218). -/
def fit (env : FitEnv) (metrics : List String) (lenx : Nat)
    (optimizerSet lossSet : Bool) (validation_split : ℚ) (hasValidationData : Bool)
    (verbose : Nat) (epochs initial_epoch : Nat) : Except PyError History :=
  if ¬ (optimizerSet ∧ lossSet) then
    Except.error (PyError.valueError "You must compile the model before training")
  else if validation_split > 0 ∧ hasValidationData then
    Except.error (PyError.valueError "validation_data and validation_split cannot be used together")
  else
    let usingVal := decide (validation_split > 0) || hasValidationData
    if usingVal ∧ verbose = 0 then
      Except.error (PyError.valueError "validation_data and verbose=0 cannot be used together")
    else
      match (List.range' initial_epoch (epochs - initial_epoch)).foldlM
          (fun st e => fitEpoch env metrics lenx verbose usingVal e st)
          ((none, none, ⟨[], [], fun _ => [], fun _ => []⟩) :
            Option ℚ × Option (String → ℚ) × History) with
      | Except.error e => Except.error e
      | Except.ok st => Except.ok st.2.2

/-- A concrete collaborator environment: one batch per epoch with training
loss 3, validation loss 5, all metric values 0. -/
def envOneBatch : FitEnv :=
  ⟨fun _ => [3], fun _ _ _ => 0, fun _ => 5, fun _ _ => 0, fun _ _ => 0⟩

end DLFS

section FitProofs

open DLFS

/-- C2: at the failing input — `verbose = 2`, validation data present, one
epoch, no metrics, one batch with loss 3, validation loss 5 — `fit` appends
to `val_loss` twice in the single epoch: first the epoch training loss
(line 199), then the validation loss (line 208).  After `E = 1` epochs,
`loss` has length 1 but `val_loss` has length 2, refuting the
once-per-epoch/length-`E` claim. -/
theorem C2_val_loss_double_append :
    (fit envOneBatch [] 4 true true 0 true 2 1 0).map History.loss
        = Except.ok [(3 : ℚ)] ∧
    (fit envOneBatch [] 4 true true 0 true 2 1 0).map History.val_loss
        = Except.ok [(3 : ℚ), 5] := by
  have h : fit envOneBatch [] 4 true true 0 true 2 1 0
      = Except.ok ⟨[(0 : ℚ) + 3], [(0 : ℚ) + 3, 5], fun _ => [], fun _ => []⟩ := rfl
  rw [h]
  constructor
  · exact congrArg Except.ok (by norm_num)
  · exact congrArg Except.ok (by norm_num)

/-- C3: at the failing input — a compiled model, `verbose = 1`, one epoch —
the epoch-end read of `epoch_loss` (line 190) finds the local never
assigned (it is assigned only under `verbose == 2`), so `fit` raises
UnboundLocalError instead of completing the epoch and returning the
History. -/
theorem C3_fit_verbose_one_unbound_epoch_loss :
    fit envOneBatch [] 4 true true 0 false 1 1 0
      = Except.error PyError.unboundLocalError := by
  rfl

/-- C6 counterexample: `evaluate` on a model on which `compile` was never
called (`self.loss = None`) does not fail with a ConfigurationError: with
`len(x) = 2 < batch_size = 32` no batch is processed and it returns
`0 / len(x) = 0` normally. -/
theorem C6_counterexample_evaluate_uncompiled_returns :
    evaluate ([] : List Unit) (none : Option (List ℚ → List ℚ → ℚ))
        [5, 6] [7, 8] 32 = Except.ok 0 := by
  have h : evaluate ([] : List Unit) (none : Option (List ℚ → List ℚ → ℚ))
      [5, 6] [7, 8] 32
      = Except.ok ((0 : ℚ) / ((([5, 6] : List ℚ).length : ℕ) : ℚ)) := rfl
  rw [h]
  exact congrArg Except.ok (by norm_num)

/-- C6 (amended): `fit` fails with the ConfigurationError (`ValueError`)
before touching any model state when the optimizer or the loss is unbound,
when `validation_data` and `validation_split > 0` are both supplied, and
when `validation_split > 0` is supplied with `verbose == 0`; `evaluate`,
however, performs no compile check — on an uncompiled model it raises
AttributeError at the first processed full batch, and returns `0 / len(x)`
normally when no full batch exists. -/
theorem C6_fit_checks_evaluate_unchecked :
    (∀ (env : FitEnv) (metrics : List String) (lenx : Nat) (lossSet : Bool)
        (vs : ℚ) (hv : Bool) (vb ep ie : Nat),
      fit env metrics lenx false lossSet vs hv vb ep ie
        = Except.error (PyError.valueError "You must compile the model before training")) ∧
    (∀ (env : FitEnv) (metrics : List String) (lenx : Nat) (optimizerSet : Bool)
        (vs : ℚ) (hv : Bool) (vb ep ie : Nat),
      fit env metrics lenx optimizerSet false vs hv vb ep ie
        = Except.error (PyError.valueError "You must compile the model before training")) ∧
    (∀ (env : FitEnv) (metrics : List String) (lenx : Nat) (vs : ℚ) (vb ep ie : Nat),
      0 < vs →
      fit env metrics lenx true true vs true vb ep ie
        = Except.error (PyError.valueError "validation_data and validation_split cannot be used together")) ∧
    (∀ (env : FitEnv) (metrics : List String) (lenx : Nat) (vs : ℚ) (ep ie : Nat),
      0 < vs →
      fit env metrics lenx true true vs false 0 ep ie
        = Except.error (PyError.valueError "validation_data and verbose=0 cannot be used together")) ∧
    (∀ (X Y γ : Type) (layers : List γ) (x : List X) (y : List Y) (b : Nat),
      0 < b → b ≤ x.length →
      evaluate layers (none : Option (List X → List Y → ℚ)) x y b
        = Except.error PyError.attributeError) ∧
    (∀ (X Y γ : Type) (layers : List γ) (x : List X) (y : List Y) (b : Nat),
      0 < x.length → x.length < b →
      evaluate layers (none : Option (List X → List Y → ℚ)) x y b
        = Except.ok 0) := by
  refine ⟨?_, ?_, ?_, ?_, ?_, ?_⟩
  · intro env metrics lenx ls vs hv vb ep ie
    rfl
  · intro env metrics lenx os vs hv vb ep ie
    cases os <;> rfl
  · intro env metrics lenx vs vb ep ie hvs
    rw [fit, if_neg (by simp), if_pos ⟨hvs, rfl⟩]
  · intro env metrics lenx vs ep ie hvs
    simp only [fit]
    rw [if_neg (by simp), if_neg (by simp), if_pos ⟨by simp [hvs], trivial⟩]
  · intro X Y γ layers x y b hb hbx
    rw [evaluate, if_neg (by omega)]
    have hpos : 0 < (evalBatches x y b).length := by
      simp only [evalBatches, List.length_map, List.length_range]
      exact Nat.div_pos hbx hb
    obtain ⟨p, l, hpl⟩ := List.exists_cons_of_ne_nil (List.length_pos.mp hpos)
    rw [hpl]
    rfl
  · intro X Y γ layers x y b hx hxb
    rw [evaluate, if_neg (by omega)]
    have hzero : x.length / b = 0 := Nat.div_eq_of_lt hxb
    have hbat : evalBatches x y b = [] := by
      simp [evalBatches, hzero]
    rw [hbat]
    show (if x.length = 0 then (Except.error PyError.zeroDivisionError : Except PyError ℚ)
        else Except.ok ((0 : ℚ) / (x.length : ℚ))) = Except.ok 0
    rw [if_neg (by omega), zero_div]

/-- Witness for C6 at concrete inputs: each of the four `fit` checks fires,
`evaluate` on an uncompiled model raises AttributeError when a full batch
exists, and returns 0 when none does. -/
theorem C6_fit_checks_evaluate_unchecked_witness :
    fit envOneBatch [] 4 false true 0 false 1 1 0
        = Except.error (PyError.valueError "You must compile the model before training") ∧
    fit envOneBatch [] 4 true false 0 false 1 1 0
        = Except.error (PyError.valueError "You must compile the model before training") ∧
    fit envOneBatch [] 4 true true (1 : ℚ) true 1 1 0
        = Except.error (PyError.valueError "validation_data and validation_split cannot be used together") ∧
    fit envOneBatch [] 4 true true (1 : ℚ) false 0 1 0
        = Except.error (PyError.valueError "validation_data and verbose=0 cannot be used together") ∧
    evaluate ([] : List Unit) (none : Option (List ℚ → List ℚ → ℚ)) [1, 2] [3, 4] 2
        = Except.error PyError.attributeError ∧
    evaluate ([] : List Unit) (none : Option (List ℚ → List ℚ → ℚ)) [1, 2] [3, 4] 32
        = Except.ok 0 :=
  ⟨C6_fit_checks_evaluate_unchecked.1 envOneBatch [] 4 true 0 false 1 1 0,
   C6_fit_checks_evaluate_unchecked.2.1 envOneBatch [] 4 true 0 false 1 1 0,
   C6_fit_checks_evaluate_unchecked.2.2.1 envOneBatch [] 4 1 1 1 0 (by norm_num),
   C6_fit_checks_evaluate_unchecked.2.2.2.1 envOneBatch [] 4 1 1 0 (by norm_num),
   C6_fit_checks_evaluate_unchecked.2.2.2.2.1 ℚ ℚ Unit [] [1, 2] [3, 4] 2
     (by norm_num) (by norm_num),
   C6_fit_checks_evaluate_unchecked.2.2.2.2.2 ℚ ℚ Unit [] [1, 2] [3, 4] 32
     (by norm_num) (by norm_num)⟩

end FitProofs
